import Mathlib

/-!
Verification development for the manga downloader (`src/manga.py`).

The Python source is shallowly embedded: the PIL image library is modelled
as a pair of pure functions (`decode`, `normalize`), the network as an
attempt-indexed oracle of fetch outcomes, and the filesystem as an
association list from path strings to byte lists.  Each embedded definition
mirrors one Python function and keeps its name.
-/

namespace Manga

/-- Raw bytes (a Python `bytes` value). -/
abbrev Bytes := List Nat

/-- The filesystem: an association list from path names to file contents. -/
abbrev FS := List (String × Bytes)

/-- Contents of a file, if present (`open(name).read()` / existence tests). -/
def FS.lookup : FS → String → Option Bytes
  | [], _ => none
  | e :: fs, name => if e.1 = name then some e.2 else FS.lookup fs name

/-- `open(name, 'wb').write(b)`: replace the contents in place, or append a
new entry. -/
def FS.write : FS → String → Bytes → FS
  | [], name, b => [(name, b)]
  | e :: fs, name, b => if e.1 = name then (name, b) :: fs else e :: FS.write fs name b

/-- `os.remove(name)`. -/
def FS.remove : FS → String → FS
  | [], _ => []
  | e :: fs, name => if e.1 = name then FS.remove fs name else e :: FS.remove fs name

/-- `os.path.exists(name)`. -/
def FS.fileExists (fs : FS) (name : String) : Bool :=
  (fs.lookup name).isSome

theorem FS.lookup_write_self (fs : FS) (name : String) (b : Bytes) :
    (fs.write name b).lookup name = some b := by
  induction fs with
  | nil => simp [FS.write, FS.lookup]
  | cons e fs ih =>
    by_cases h : e.1 = name
    · simp [FS.write, FS.lookup, h]
    · simp [FS.write, FS.lookup, h, ih]

theorem FS.lookup_write_ne (fs : FS) (name m : String) (b : Bytes) (h : m ≠ name) :
    (fs.write name b).lookup m = fs.lookup m := by
  have hnm : name ≠ m := Ne.symm h
  induction fs with
  | nil => simp [FS.write, FS.lookup, hnm]
  | cons e fs ih =>
    by_cases he : e.1 = name
    · simp [FS.write, FS.lookup, he, hnm]
    · simp only [FS.write, he, if_false, FS.lookup]
      by_cases hm : e.1 = m
      · simp [hm]
      · simp [hm, ih]

theorem FS.lookup_remove_self (fs : FS) (name : String) :
    (fs.remove name).lookup name = none := by
  induction fs with
  | nil => simp [FS.remove, FS.lookup]
  | cons e fs ih =>
    by_cases h : e.1 = name
    · simp [FS.remove, h, ih]
    · simp [FS.remove, FS.lookup, h, ih]

theorem FS.lookup_remove_ne (fs : FS) (name m : String) (h : m ≠ name) :
    (fs.remove name).lookup m = fs.lookup m := by
  have hnm : name ≠ m := Ne.symm h
  induction fs with
  | nil => simp [FS.remove]
  | cons e fs ih =>
    by_cases he : e.1 = name
    · simp [FS.remove, he, ih, FS.lookup, hnm]
    · simp only [FS.remove, he, if_false, FS.lookup]
      by_cases hm : e.1 = m
      · simp [hm]
      · simp [hm, ih]

/-! ### String helpers shared by several functions -/

/-- Is `needle` a prefix of the character list? -/
def isPrefixL : List Char → List Char → Bool
  | [], _ => true
  | _ :: _, [] => false
  | a :: as, b :: bs => if a = b then isPrefixL as bs else false

/-- Is `needle` a contiguous substring of the character list?  Models the
Python `needle in hay` test on strings. -/
def isSubL (needle : List Char) : List Char → Bool
  | [] => isPrefixL needle []
  | b :: bs => if isPrefixL needle (b :: bs) then true else isSubL needle bs

/-- Python `needle in hay` for strings. -/
def strContainsSub (hay needle : String) : Bool :=
  isSubL needle.toList hay.toList

/-- Characters after the last `/` (the whole list when no `/` occurs). -/
def basenameL (cs : List Char) : List Char :=
  cs.foldl (fun acc c => if c = '/' then [] else acc ++ [c]) []

/-- `os.path.basename`: the component after the final `/`. -/
def basename (s : String) : String :=
  ⟨basenameL s.toList⟩

/-- `os.path.join(dir, name)` for the POSIX paths this pipeline builds. -/
def pathJoin (dir name : String) : String :=
  dir ++ "/" ++ name

/-- The diagnostic-evidence name `f"error_{os.path.basename(filename)}.html"`
used on terminal download failure (manga.py line 187). -/
def errorName (filename : String) : String :=
  "error_" ++ basename filename ++ ".html"

/-! ### The image acquisition pipeline: `download_and_process_image`

The network is an attempt-indexed oracle.  A fetch either fails before any
response exists (`connError`: connection/DNS/timeout) or produces a response
with a status code, a `Content-Type` header and a body.  PIL is modelled by
an `ImgLib`: `decode` is `Image.open` + `verify` + `convert("RGBA")`
(`none` on undecodable bytes), `normalize` is the paste-onto-white-RGB and
JPEG quality-95 re-encode. -/

/-- An HTTP response (`requests.Response`). -/
structure Response where
  status : Nat
  contentType : String
  body : Bytes
deriving DecidableEq

/-- Outcome of one `SESSION.get` call. -/
inductive FetchOutcome where
  | connError
  | resp (r : Response)
deriving DecidableEq

/-- The pure model of the PIL calls used by the pipeline. -/
structure ImgLib where
  decode : Bytes → Option Bytes
  normalize : Bytes → Bytes

/-- An observable event of the download loop. -/
inductive DEvent where
  | fetch
  | sleep (d : Nat)
deriving DecidableEq

/-- Result of one attempt's `try` body (manga.py lines 153-179): the updated
filesystem, the binding of the local `response` variable, and whether the
attempt reached the `break`. -/
structure AttemptResult where
  fs : FS
  lastResp : Option Response
  ok : Bool

/-- One attempt of `download_and_process_image`'s `try` body: fetch,
`raise_for_status`, content-type check, write the raw body to `filename`,
decode/verify it, then normalize and re-save. -/
def attemptStep (lib : ImgLib) (filename : String) (f : FetchOutcome)
    (fs : FS) (lastResp : Option Response) : AttemptResult :=
  match f with
  | .connError => ⟨fs, lastResp, false⟩
  | .resp r =>
    if 400 ≤ r.status then ⟨fs, some r, false⟩
    else if strContainsSub r.contentType "image" = false then ⟨fs, some r, false⟩
    else
      let fs1 := fs.write filename r.body
      match lib.decode ((fs1.lookup filename).getD []) with
      | none => ⟨fs1, some r, false⟩
      | some img => ⟨fs1.write filename (lib.normalize img), some r, true⟩

/-- Result of the whole download loop: the final filesystem, the observable
events (fetch attempts and backoff sleeps, in order), and whether any
attempt succeeded (the Python function itself returns `None`; `ok` records
whether the loop exited via `break`). -/
structure DownloadResult where
  fs : FS
  events : List DEvent
  ok : Bool

/-- The cleanup in the `except` handler (manga.py lines 182-183):
`if os.path.exists(filename): os.remove(filename)`. -/
def cleanupFS (fs : FS) (name : String) : FS :=
  if fs.fileExists name then fs.remove name else fs

/-- The retry loop of `download_and_process_image` (manga.py lines 151-191),
recursing over the list of remaining attempt indices (`range(5)`).  On
failure the partially written file is removed, then either a backoff sleep
of `2 ** attempt` happens (non-final attempt) or, on the final attempt, the
last received response body is persisted under `errorName filename` — only
if the local `response` was ever bound. -/
def downloadGo (lib : ImgLib) (oracle : Nat → FetchOutcome) (filename : String) :
    List Nat → FS → Option Response → DownloadResult
  | [], fs, _ => ⟨fs, [], false⟩
  | a :: rest, fs, lastResp =>
    let step := attemptStep lib filename (oracle a) fs lastResp
    if step.ok then ⟨step.fs, [.fetch], true⟩
    else
      let fs2 := cleanupFS step.fs filename
      if rest.isEmpty then
        match step.lastResp with
        | some r => ⟨fs2.write (errorName filename) r.body, [.fetch], false⟩
        | none => ⟨fs2, [.fetch], false⟩
      else
        let res := downloadGo lib oracle filename rest fs2 step.lastResp
        ⟨res.fs, .fetch :: .sleep (2 ^ a) :: res.events, res.ok⟩

/-- `download_and_process_image(filename, url)`: five attempts, threading
the filesystem and the (initially unbound) `response` local. -/
def download_and_process_image (lib : ImgLib) (oracle : Nat → FetchOutcome)
    (filename : String) (fs : FS) : DownloadResult :=
  downloadGo lib oracle filename [0, 1, 2, 3, 4] fs none

/-- The backoff delays of a download run, in order. -/
def dSleeps (events : List DEvent) : List Nat :=
  events.filterMap fun e => match e with | .sleep d => some d | .fetch => none

/-- The number of fetch attempts of a download run. -/
def dFetchCount (events : List DEvent) : Nat :=
  events.count .fetch

/-! ### Lemmas about the attempt step and the retry loop -/

/-- Whether one attempt's `try` body reaches the `break`, as a function of
the fetch outcome and the image library alone. -/
def attemptSucceeds (lib : ImgLib) (f : FetchOutcome) : Bool :=
  match f with
  | .connError => false
  | .resp r =>
    decide (r.status < 400) && strContainsSub r.contentType "image" && (lib.decode r.body).isSome

/-- The normalized bytes a successful attempt leaves at `filename`. -/
def attemptOutput (lib : ImgLib) (f : FetchOutcome) : Option Bytes :=
  match f with
  | .connError => none
  | .resp r => (lib.decode r.body).map lib.normalize

theorem attemptStep_ok (lib : ImgLib) (filename : String) (f : FetchOutcome)
    (fs : FS) (lastResp : Option Response) :
    (attemptStep lib filename f fs lastResp).ok = attemptSucceeds lib f := by
  cases f with
  | connError => rfl
  | resp r =>
    by_cases h4 : 400 ≤ r.status
    · simp [attemptStep, attemptSucceeds, h4, Nat.not_lt.mpr h4]
    · have hlt : r.status < 400 := Nat.lt_of_not_le h4
      by_cases hct : strContainsSub r.contentType "image" = false
      · simp [attemptStep, attemptSucceeds, h4, hct]
      · have hct' : strContainsSub r.contentType "image" = true := by
          revert hct; cases strContainsSub r.contentType "image" <;> simp
        simp only [attemptStep, attemptSucceeds, h4, if_false, hct', FS.lookup_write_self]
        cases hd : lib.decode r.body <;> simp [hd, hlt, hct']

theorem attemptStep_lastResp (lib : ImgLib) (filename : String) (f : FetchOutcome)
    (fs : FS) (lastResp : Option Response) :
    (attemptStep lib filename f fs lastResp).lastResp =
      (match f with | .connError => lastResp | .resp r => some r) := by
  cases f with
  | connError => rfl
  | resp r =>
    by_cases h4 : 400 ≤ r.status
    · simp [attemptStep, h4]
    · by_cases hct : strContainsSub r.contentType "image" = false
      · simp [attemptStep, h4, hct]
      · simp only [attemptStep, h4, if_false, hct]
        cases hd : lib.decode ((((fs.write filename r.body)).lookup filename).getD []) <;>
          simp [hd]

theorem attemptStep_lookup_ne (lib : ImgLib) (filename : String) (f : FetchOutcome)
    (fs : FS) (lastResp : Option Response) (m : String) (hm : m ≠ filename) :
    (attemptStep lib filename f fs lastResp).fs.lookup m = fs.lookup m := by
  cases f with
  | connError => rfl
  | resp r =>
    by_cases h4 : 400 ≤ r.status
    · simp [attemptStep, h4]
    · by_cases hct : strContainsSub r.contentType "image" = false
      · simp [attemptStep, h4, hct]
      · simp only [attemptStep, h4, if_false, hct]
        cases hd : lib.decode ((((fs.write filename r.body)).lookup filename).getD []) <;>
          simp [hd, FS.lookup_write_ne _ _ _ _ hm]

theorem attemptStep_success_lookup (lib : ImgLib) (filename : String) (f : FetchOutcome)
    (fs : FS) (lastResp : Option Response) (h : attemptSucceeds lib f = true) :
    (attemptStep lib filename f fs lastResp).fs.lookup filename = attemptOutput lib f := by
  cases f with
  | connError => exact absurd h (by simp [attemptSucceeds])
  | resp r =>
    simp only [attemptSucceeds, Bool.and_eq_true, decide_eq_true_eq] at h
    obtain ⟨⟨h4, hct⟩, hsome⟩ := h
    obtain ⟨img, himg⟩ := Option.isSome_iff_exists.mp hsome
    have hn : ¬ (400 ≤ r.status) := Nat.not_le.mpr h4
    simp only [attemptStep, hn, if_false, hct, FS.lookup_write_self, Option.getD_some, himg]
    simp [attemptOutput, himg, FS.lookup_write_self]

theorem cleanupFS_lookup_self (fs : FS) (n : String) :
    (cleanupFS fs n).lookup n = none := by
  unfold cleanupFS
  by_cases h : fs.fileExists n = true
  · simp only [h, if_true]
    exact FS.lookup_remove_self fs n
  · have hnone : fs.lookup n = none := by
      unfold FS.fileExists at h
      cases hl : fs.lookup n
      · rfl
      · rw [hl] at h; simp at h
    simp only [h, if_false, Bool.false_eq_true]
    simpa using hnone

theorem cleanupFS_lookup_ne (fs : FS) (n m : String) (hm : m ≠ n) :
    (cleanupFS fs n).lookup m = fs.lookup m := by
  unfold cleanupFS
  by_cases h : fs.fileExists n = true
  · simp only [h, if_true]
    exact FS.lookup_remove_ne fs n m hm
  · simp [h]

/-- The expected event trace of an all-failing run over the given attempt
indices: a fetch per attempt, a backoff sleep of `2 ^ attempt` after every
non-final attempt, and no sleep after the final one. -/
def expEvents : List Nat → List DEvent
  | [] => []
  | a :: rest =>
    if rest.isEmpty then [DEvent.fetch]
    else DEvent.fetch :: DEvent.sleep (2 ^ a) :: expEvents rest

/-- The binding of the `response` local after running the given attempts:
the last response received from the oracle, or the initial binding when
every fetch raised before a response existed. -/
def lastRespAfter (oracle : Nat → FetchOutcome) : List Nat → Option Response → Option Response
  | [], init => init
  | a :: rest, init =>
    lastRespAfter oracle rest
      (match oracle a with | .connError => init | .resp r => some r)

theorem downloadGo_allFail_events (lib : ImgLib) (oracle : Nat → FetchOutcome) (filename : String)
    (attempts : List Nat) (hfail : ∀ a ∈ attempts, attemptSucceeds lib (oracle a) = false) :
    ∀ (fs : FS) (lastResp : Option Response),
      (downloadGo lib oracle filename attempts fs lastResp).events = expEvents attempts ∧
      (downloadGo lib oracle filename attempts fs lastResp).ok = false := by
  induction attempts with
  | nil => intro fs lastResp; exact ⟨rfl, rfl⟩
  | cons a rest ih =>
    intro fs lastResp
    have ha : attemptSucceeds lib (oracle a) = false := hfail a (List.mem_cons_self a rest)
    have hrest : ∀ b ∈ rest, attemptSucceeds lib (oracle b) = false :=
      fun b hb => hfail b (List.mem_cons_of_mem a hb)
    by_cases hr : rest.isEmpty
    · cases hlr : (attemptStep lib filename (oracle a) fs lastResp).lastResp with
      | none => simp [downloadGo, attemptStep_ok, ha, hr, hlr, expEvents]
      | some r => simp [downloadGo, attemptStep_ok, ha, hr, hlr, expEvents]
    · have h1 := ih hrest (cleanupFS (attemptStep lib filename (oracle a) fs lastResp).fs filename)
        (attemptStep lib filename (oracle a) fs lastResp).lastResp
      simp [downloadGo, attemptStep_ok, ha, hr, expEvents, h1.1, h1.2]

theorem downloadGo_allFail_fs (lib : ImgLib) (oracle : Nat → FetchOutcome) (filename : String)
    (hne : errorName filename ≠ filename)
    (attempts : List Nat) (hfail : ∀ a ∈ attempts, attemptSucceeds lib (oracle a) = false)
    (hnonempty : attempts ≠ []) :
    ∀ (fs : FS) (lastResp : Option Response),
      (downloadGo lib oracle filename attempts fs lastResp).fs.lookup filename = none ∧
      (∀ m, m ≠ filename → m ≠ errorName filename →
        (downloadGo lib oracle filename attempts fs lastResp).fs.lookup m = fs.lookup m) ∧
      (downloadGo lib oracle filename attempts fs lastResp).fs.lookup (errorName filename) =
        (match lastRespAfter oracle attempts lastResp with
         | some r => some r.body
         | none => fs.lookup (errorName filename)) := by
  induction attempts with
  | nil => exact absurd rfl hnonempty
  | cons a rest ih =>
    intro fs lastResp
    have ha : attemptSucceeds lib (oracle a) = false := hfail a (List.mem_cons_self a rest)
    have hrest : ∀ b ∈ rest, attemptSucceeds lib (oracle b) = false :=
      fun b hb => hfail b (List.mem_cons_of_mem a hb)
    have hstep_lr := attemptStep_lastResp lib filename (oracle a) fs lastResp
    by_cases hr : rest.isEmpty
    · cases hlr : (attemptStep lib filename (oracle a) fs lastResp).lastResp with
      | none =>
        have hlra : lastRespAfter oracle (a :: rest) lastResp = none := by
          have : rest = [] := List.isEmpty_iff.mp hr
          subst this
          simp only [lastRespAfter]
          rw [← hstep_lr, hlr]
        refine ⟨?_, ?_, ?_⟩
        · simp only [downloadGo, attemptStep_ok, ha, if_false, hr, if_true, hlr,
            Bool.false_eq_true]
          exact cleanupFS_lookup_self _ _
        · intro m hm1 hm2
          simp only [downloadGo, attemptStep_ok, ha, if_false, hr, if_true, hlr,
            Bool.false_eq_true]
          rw [cleanupFS_lookup_ne _ _ _ hm1]
          exact attemptStep_lookup_ne _ _ _ _ _ _ hm1
        · simp only [downloadGo, attemptStep_ok, ha, if_false, hr, if_true, hlr,
            Bool.false_eq_true, hlra]
          rw [cleanupFS_lookup_ne _ _ _ hne]
          exact attemptStep_lookup_ne _ _ _ _ _ _ hne
      | some r =>
        have hlra : lastRespAfter oracle (a :: rest) lastResp = some r := by
          have : rest = [] := List.isEmpty_iff.mp hr
          subst this
          simp only [lastRespAfter]
          rw [← hstep_lr, hlr]
        refine ⟨?_, ?_, ?_⟩
        · simp only [downloadGo, attemptStep_ok, ha, if_false, hr, if_true, hlr,
            Bool.false_eq_true]
          rw [FS.lookup_write_ne _ _ _ _ (Ne.symm hne)]
          exact cleanupFS_lookup_self _ _
        · intro m hm1 hm2
          simp only [downloadGo, attemptStep_ok, ha, if_false, hr, if_true, hlr,
            Bool.false_eq_true]
          rw [FS.lookup_write_ne _ _ _ _ hm2, cleanupFS_lookup_ne _ _ _ hm1]
          exact attemptStep_lookup_ne _ _ _ _ _ _ hm1
        · simp only [downloadGo, attemptStep_ok, ha, if_false, hr, if_true, hlr,
            Bool.false_eq_true, hlra]
          exact FS.lookup_write_self _ _ _
    · have hrne : rest ≠ [] := fun hh => by simp [hh] at hr
      have h1 := ih hrest hrne (cleanupFS (attemptStep lib filename (oracle a) fs lastResp).fs filename)
        (attemptStep lib filename (oracle a) fs lastResp).lastResp
      have hlra : lastRespAfter oracle (a :: rest) lastResp =
          lastRespAfter oracle rest (attemptStep lib filename (oracle a) fs lastResp).lastResp := by
        simp only [lastRespAfter]
        rw [hstep_lr]
      refine ⟨?_, ?_, ?_⟩
      · simp only [downloadGo, attemptStep_ok, ha, if_false, hr, Bool.false_eq_true]
        exact h1.1
      · intro m hm1 hm2
        simp only [downloadGo, attemptStep_ok, ha, if_false, hr, Bool.false_eq_true]
        rw [h1.2.1 m hm1 hm2, cleanupFS_lookup_ne _ _ _ hm1]
        exact attemptStep_lookup_ne _ _ _ _ _ _ hm1
      · simp only [downloadGo, attemptStep_ok, ha, if_false, hr, Bool.false_eq_true, hlra]
        rw [h1.2.2]
        cases lastRespAfter oracle rest (attemptStep lib filename (oracle a) fs lastResp).lastResp with
        | none =>
          simp only
          rw [cleanupFS_lookup_ne _ _ _ hne]
          exact attemptStep_lookup_ne _ _ _ _ _ _ hne
        | some r => rfl

/-- Whether any attempt of a run succeeds (the loop reaches its `break`). -/
def runSucceeds (lib : ImgLib) (oracle : Nat → FetchOutcome) (attempts : List Nat) : Bool :=
  attempts.any fun a => attemptSucceeds lib (oracle a)

/-- The normalized bytes left at the target path by the first succeeding
attempt of a run. -/
def runOutput (lib : ImgLib) (oracle : Nat → FetchOutcome) : List Nat → Option Bytes
  | [] => none
  | a :: rest =>
    if attemptSucceeds lib (oracle a) then attemptOutput lib (oracle a)
    else runOutput lib oracle rest

theorem downloadGo_ok (lib : ImgLib) (oracle : Nat → FetchOutcome) (filename : String) :
    ∀ (attempts : List Nat) (fs : FS) (lastResp : Option Response),
      (downloadGo lib oracle filename attempts fs lastResp).ok =
        runSucceeds lib oracle attempts := by
  intro attempts
  induction attempts with
  | nil => intro fs lastResp; rfl
  | cons a rest ih =>
    intro fs lastResp
    cases hs : attemptSucceeds lib (oracle a) with
    | true => simp [downloadGo, attemptStep_ok, hs, runSucceeds]
    | false =>
      by_cases hr : rest.isEmpty
      · cases hlr : (attemptStep lib filename (oracle a) fs lastResp).lastResp with
        | none =>
          have : rest = [] := List.isEmpty_iff.mp hr
          subst this
          simp [downloadGo, attemptStep_ok, hs, hlr, runSucceeds]
        | some r =>
          have : rest = [] := List.isEmpty_iff.mp hr
          subst this
          simp [downloadGo, attemptStep_ok, hs, hlr, runSucceeds]
      · have h1 := ih (cleanupFS (attemptStep lib filename (oracle a) fs lastResp).fs filename)
          (attemptStep lib filename (oracle a) fs lastResp).lastResp
        simp [downloadGo, attemptStep_ok, hs, hr, h1, runSucceeds]

theorem downloadGo_success_lookup (lib : ImgLib) (oracle : Nat → FetchOutcome) (filename : String) :
    ∀ (attempts : List Nat) (fs : FS) (lastResp : Option Response),
      (downloadGo lib oracle filename attempts fs lastResp).ok = true →
      (downloadGo lib oracle filename attempts fs lastResp).fs.lookup filename =
        runOutput lib oracle attempts := by
  intro attempts
  induction attempts with
  | nil => intro fs lastResp h; exact absurd h (by simp [downloadGo])
  | cons a rest ih =>
    intro fs lastResp h
    cases hs : attemptSucceeds lib (oracle a) with
    | true =>
      simp only [downloadGo, attemptStep_ok, hs, if_true, runOutput]
      exact attemptStep_success_lookup lib filename (oracle a) fs lastResp hs
    | false =>
      by_cases hr : rest.isEmpty
      · exfalso
        rw [downloadGo_ok] at h
        have : rest = [] := List.isEmpty_iff.mp hr
        subst this
        simp [runSucceeds, hs] at h
      · have hok : (downloadGo lib oracle filename rest
            (cleanupFS (attemptStep lib filename (oracle a) fs lastResp).fs filename)
            (attemptStep lib filename (oracle a) fs lastResp).lastResp).ok = true := by
          rw [downloadGo_ok]
          rw [downloadGo_ok] at h
          simpa [runSucceeds, hs] using h
        have h1 := ih (cleanupFS (attemptStep lib filename (oracle a) fs lastResp).fs filename)
          (attemptStep lib filename (oracle a) fs lastResp).lastResp hok
        simp [downloadGo, attemptStep_ok, hs, hr, h1, runOutput]

theorem downloadGo_lookup_other (lib : ImgLib) (oracle : Nat → FetchOutcome) (filename : String)
    (m : String) (hm1 : m ≠ filename) (hm2 : m ≠ errorName filename) :
    ∀ (attempts : List Nat) (fs : FS) (lastResp : Option Response),
      (downloadGo lib oracle filename attempts fs lastResp).fs.lookup m = fs.lookup m := by
  intro attempts
  induction attempts with
  | nil => intro fs lastResp; rfl
  | cons a rest ih =>
    intro fs lastResp
    cases hs : attemptSucceeds lib (oracle a) with
    | true =>
      simp only [downloadGo, attemptStep_ok, hs, if_true]
      exact attemptStep_lookup_ne _ _ _ _ _ _ hm1
    | false =>
      by_cases hr : rest.isEmpty
      · cases hlr : (attemptStep lib filename (oracle a) fs lastResp).lastResp with
        | none =>
          simp only [downloadGo, attemptStep_ok, hs, if_false, hr, if_true, hlr,
            Bool.false_eq_true]
          rw [cleanupFS_lookup_ne _ _ _ hm1]
          exact attemptStep_lookup_ne _ _ _ _ _ _ hm1
        | some r =>
          simp only [downloadGo, attemptStep_ok, hs, if_false, hr, if_true, hlr,
            Bool.false_eq_true]
          rw [FS.lookup_write_ne _ _ _ _ hm2, cleanupFS_lookup_ne _ _ _ hm1]
          exact attemptStep_lookup_ne _ _ _ _ _ _ hm1
      · have h1 := ih (cleanupFS (attemptStep lib filename (oracle a) fs lastResp).fs filename)
          (attemptStep lib filename (oracle a) fs lastResp).lastResp
        simp only [downloadGo, attemptStep_ok, hs, if_false, hr, Bool.false_eq_true]
        rw [h1, cleanupFS_lookup_ne _ _ _ hm1]
        exact attemptStep_lookup_ne _ _ _ _ _ _ hm1

/-! ### Concrete fixtures used by counterexamples and witnesses -/

/-- A PIL model that decodes nothing: every body is undecodable. -/
def noDecodeLib : ImgLib := ⟨fun _ => none, fun b => b⟩

/-- A PIL model that decodes every body as itself and prepends a marker
byte when normalizing. -/
def okLib : ImgLib := ⟨fun b => some b, fun b => 9 :: b⟩

/-- A page URL that always returns HTTP 403 with an HTML body. -/
def oracle403 : Nat → FetchOutcome := fun _ => .resp ⟨403, "text/html", [7]⟩

/-- A page URL whose fetch always fails before any response exists
(connection error / timeout). -/
def oracleConn : Nat → FetchOutcome := fun _ => .connError

/-- A page URL that always succeeds with an image body. -/
def oracleOK : Nat → FetchOutcome := fun _ => .resp ⟨200, "image/png", [1, 2]⟩

/-! ### Claim C1: retry ceiling and backoff delays -/

/-- C1 counterexample: for a page whose URL always returns HTTP 403,
`download_and_process_image` performs exactly 5 fetch attempts but sleeps
only four times, with delays 1, 2, 4, 8 — there is no fifth delay of 16,
because no sleep follows the final attempt.  This refutes the claimed
delay sequence 1, 2, 4, 8, 16. -/
theorem c1_counterexample :
    dSleeps (download_and_process_image noDecodeLib oracle403 "1.jpg" []).events = [1, 2, 4, 8] ∧
    dSleeps (download_and_process_image noDecodeLib oracle403 "1.jpg" []).events ≠
      [1, 2, 4, 8, 16] ∧
    dFetchCount (download_and_process_image noDecodeLib oracle403 "1.jpg" []).events = 5 ∧
    (download_and_process_image noDecodeLib oracle403 "1.jpg" []).ok = false := by
  refine ⟨by decide, by decide, by decide, by decide⟩

/-- C1 (amended): for every page whose fetch always fails (every attempt
fails, e.g. a URL always returning HTTP 403), the acquire operation performs
exactly 5 fetch attempts and sleeps between consecutive attempts with
strictly increasing exponential delays of 1, 2, 4, 8 time units (delay
`2 ^ attemptNumber` after failed attempt number `attemptNumber`, for the
four non-final attempts; no sleep follows the fifth attempt) before
finishing with no successful outcome. -/
theorem c1_retry_schedule (lib : ImgLib) (oracle : Nat → FetchOutcome)
    (filename : String) (fs : FS)
    (hfail : ∀ a, attemptSucceeds lib (oracle a) = false) :
    (download_and_process_image lib oracle filename fs).events =
      [DEvent.fetch, DEvent.sleep 1, DEvent.fetch, DEvent.sleep 2, DEvent.fetch,
       DEvent.sleep 4, DEvent.fetch, DEvent.sleep 8, DEvent.fetch] ∧
    dFetchCount (download_and_process_image lib oracle filename fs).events = 5 ∧
    dSleeps (download_and_process_image lib oracle filename fs).events = [1, 2, 4, 8] ∧
    (download_and_process_image lib oracle filename fs).ok = false := by
  have h := downloadGo_allFail_events lib oracle filename [0, 1, 2, 3, 4]
    (fun a _ => hfail a) fs none
  unfold download_and_process_image
  rw [h.1, h.2]
  exact ⟨by decide, by decide, by decide, rfl⟩

/-- C1 witness: the amended retry schedule at a concrete always-403 page. -/
theorem c1_retry_schedule_witness :
    (download_and_process_image noDecodeLib oracle403 "p.jpg" []).events =
      [DEvent.fetch, DEvent.sleep 1, DEvent.fetch, DEvent.sleep 2, DEvent.fetch,
       DEvent.sleep 4, DEvent.fetch, DEvent.sleep 8, DEvent.fetch] ∧
    dFetchCount (download_and_process_image noDecodeLib oracle403 "p.jpg" []).events = 5 ∧
    dSleeps (download_and_process_image noDecodeLib oracle403 "p.jpg" []).events = [1, 2, 4, 8] ∧
    (download_and_process_image noDecodeLib oracle403 "p.jpg" []).ok = false :=
  c1_retry_schedule noDecodeLib oracle403 "p.jpg" [] (fun _ => rfl)

/-! ### Claim C6: evidence persistence on terminal failure -/

/-- C6 counterexample: for a page whose fetch fails on every attempt before
any response exists (pure connection errors), the terminal failure persists
nothing at all — the filesystem is left empty and there is no evidence file
under the diagnostic name.  This refutes the claim that the last raw
response body is persisted for every terminal failure kind, including
failures where no response was received. -/
theorem c6_counterexample :
    (download_and_process_image noDecodeLib oracleConn "1.jpg" []).fs = [] ∧
    (download_and_process_image noDecodeLib oracleConn "1.jpg" []).fs.lookup
      (errorName "1.jpg") = none ∧
    (download_and_process_image noDecodeLib oracleConn "1.jpg" []).ok = false := by
  refine ⟨by decide, by decide, by decide⟩

/-- C6 (amended): for every page whose acquisition exhausts all retry
attempts, the run ends with no successful outcome and, whenever at least
one attempt received a response, the body of the last received response is
persisted under the diagnostic name `error_<basename>.html` derived from
the page's file name; when no attempt ever received a response, nothing is
persisted there. -/
theorem c6_evidence_on_failure (lib : ImgLib) (oracle : Nat → FetchOutcome)
    (filename : String) (fs : FS)
    (hfail : ∀ a, attemptSucceeds lib (oracle a) = false)
    (hne : errorName filename ≠ filename) :
    (download_and_process_image lib oracle filename fs).ok = false ∧
    (download_and_process_image lib oracle filename fs).fs.lookup (errorName filename) =
      (match lastRespAfter oracle [0, 1, 2, 3, 4] none with
       | some r => some r.body
       | none => fs.lookup (errorName filename)) := by
  have h := downloadGo_allFail_fs lib oracle filename hne [0, 1, 2, 3, 4]
    (fun a _ => hfail a) (by simp) fs none
  have he := downloadGo_allFail_events lib oracle filename [0, 1, 2, 3, 4]
    (fun a _ => hfail a) fs none
  exact ⟨he.2, h.2.2⟩

/-- C6 witness: at a concrete always-403 page the evidence file holds the
last response body. -/
theorem c6_evidence_on_failure_witness :
    (download_and_process_image noDecodeLib oracle403 "1.jpg" []).ok = false ∧
    (download_and_process_image noDecodeLib oracle403 "1.jpg" []).fs.lookup
      (errorName "1.jpg") =
      (match lastRespAfter oracle403 [0, 1, 2, 3, 4] none with
       | some r => some r.body
       | none => FS.lookup [] (errorName "1.jpg")) :=
  c6_evidence_on_failure noDecodeLib oracle403 "1.jpg" [] (fun _ => rfl) (by decide)

/-! ### Claim C10: failed runs leave no file at the target path -/

/-- C10: after every failed acquisition attempt the partially written file
at the target path is deleted at the cleanup point before the next attempt
(first conjunct, about the `except`-handler cleanup), and a page whose run
ends in failure leaves no image file at its target path; at most the
evidence file under the diagnostic name is touched — every other path keeps
its previous contents. -/
theorem c10_failure_leaves_no_target_file (lib : ImgLib) (oracle : Nat → FetchOutcome)
    (filename : String) (fs : FS)
    (hfail : ∀ a, attemptSucceeds lib (oracle a) = false)
    (hne : errorName filename ≠ filename) :
    (∀ fs' : FS, (cleanupFS fs' filename).lookup filename = none) ∧
    (download_and_process_image lib oracle filename fs).fs.lookup filename = none ∧
    (∀ m, m ≠ filename → m ≠ errorName filename →
      (download_and_process_image lib oracle filename fs).fs.lookup m = fs.lookup m) := by
  have h := downloadGo_allFail_fs lib oracle filename hne [0, 1, 2, 3, 4]
    (fun a _ => hfail a) (by simp) fs none
  exact ⟨fun fs' => cleanupFS_lookup_self fs' filename, h.1, h.2.1⟩

/-- C10 witness: concrete failing page with a stale file at the target
path; the run removes it and leaves unrelated files alone. -/
theorem c10_failure_leaves_no_target_file_witness :
    (∀ fs' : FS, (cleanupFS fs' "1.jpg").lookup "1.jpg" = none) ∧
    (download_and_process_image noDecodeLib oracle403 "1.jpg"
      [("1.jpg", [5]), ("other.txt", [6])]).fs.lookup "1.jpg" = none ∧
    (∀ m, m ≠ "1.jpg" → m ≠ errorName "1.jpg" →
      (download_and_process_image noDecodeLib oracle403 "1.jpg"
        [("1.jpg", [5]), ("other.txt", [6])]).fs.lookup m =
        FS.lookup [("1.jpg", [5]), ("other.txt", [6])] m) :=
  c10_failure_leaves_no_target_file noDecodeLib oracle403 "1.jpg"
    [("1.jpg", [5]), ("other.txt", [6])] (fun _ => rfl) (by decide)

/-! ### Claim C9: idempotence of successful acquisition -/

/-- C9: acquisition is idempotent on success.  For a page whose source
image bytes are unchanged (the same fetch oracle on both runs), re-running
`download_and_process_image` after a successful run succeeds again and
leaves byte-for-byte the same normalized output at the target path — the
validate/decode/flatten/re-encode pipeline is deterministic in its input
bytes. -/
theorem c9_acquire_idempotent (lib : ImgLib) (oracle : Nat → FetchOutcome)
    (filename : String) (fs : FS)
    (hok : (download_and_process_image lib oracle filename fs).ok = true) :
    (download_and_process_image lib oracle filename
        (download_and_process_image lib oracle filename fs).fs).ok = true ∧
    (download_and_process_image lib oracle filename
        (download_and_process_image lib oracle filename fs).fs).fs.lookup filename =
      (download_and_process_image lib oracle filename fs).fs.lookup filename := by
  unfold download_and_process_image at hok ⊢
  rw [downloadGo_ok] at hok
  constructor
  · rw [downloadGo_ok]
    exact hok
  · rw [downloadGo_success_lookup lib oracle filename [0, 1, 2, 3, 4] _ none
      (by rw [downloadGo_ok]; exact hok),
      downloadGo_success_lookup lib oracle filename [0, 1, 2, 3, 4] fs none
      (by rw [downloadGo_ok]; exact hok)]

/-- C9 witness: a concrete page that succeeds on the first attempt yields
the same stored bytes when acquired again. -/
theorem c9_acquire_idempotent_witness :
    (download_and_process_image okLib oracleOK "p.jpg"
        (download_and_process_image okLib oracleOK "p.jpg" []).fs).ok = true ∧
    (download_and_process_image okLib oracleOK "p.jpg"
        (download_and_process_image okLib oracleOK "p.jpg" []).fs).fs.lookup "p.jpg" =
      (download_and_process_image okLib oracleOK "p.jpg" []).fs.lookup "p.jpg" :=
  c9_acquire_idempotent okLib oracleOK "p.jpg" [] (by decide)

/-! ### The chapter coordinator: `download_images_concurrently`

The worker pool joins all futures and every task swallows its own
exceptions, so the observable behaviour is each page's
`download_and_process_image` run on its own target path; tasks touch
pairwise disjoint paths, so the pool is modelled by running the tasks in
sequence over the shared filesystem.  The Python function has no `return`
statement: its value is `None`, modelled as `Unit`. -/

/-- Python `enumerate(urls, start=1)`. -/
def enumerateFrom (n : Nat) : List String → List (Nat × String)
  | [] => []
  | x :: xs => (n, x) :: enumerateFrom (n + 1) xs

/-- The target path of page `idx`:
`os.path.join(download_dir, f"{idx}.jpg")` (manga.py line 200). -/
def pageName (dir : String) (idx : Nat) : String :=
  pathJoin dir (toString idx ++ ".jpg")

/-- Run the submitted tasks (manga.py lines 197-206). -/
def downloadAllGo (lib : ImgLib) (oracle : String → Nat → FetchOutcome) (dir : String) :
    List (Nat × String) → FS → FS
  | [], fs => fs
  | (idx, url) :: rest, fs =>
    downloadAllGo lib oracle dir rest
      (download_and_process_image lib (oracle url) (pageName dir idx) fs).fs

/-- `download_images_concurrently(urls, download_dir)`: the final
filesystem together with the Python return value (`None`). -/
def download_images_concurrently (lib : ImgLib) (oracle : String → Nat → FetchOutcome)
    (urls : List String) (dir : String) (fs : FS) : FS × Unit :=
  (downloadAllGo lib oracle dir (enumerateFrom 1 urls) fs, ())

theorem enumerateFrom_length : ∀ (n : Nat) (l : List String),
    (enumerateFrom n l).length = l.length := by
  intro n l
  induction l generalizing n with
  | nil => rfl
  | cons x xs ih => simp [enumerateFrom, ih]

theorem enumerateFrom_map_fst : ∀ (n : Nat) (l : List String),
    (enumerateFrom n l).map Prod.fst = List.range' n l.length := by
  intro n l
  induction l generalizing n with
  | nil => rfl
  | cons x xs ih => simp [enumerateFrom, ih, List.range']

theorem downloadAllGo_lookup_other (lib : ImgLib) (oracle : String → Nat → FetchOutcome)
    (dir : String) (m : String) :
    ∀ (pages : List (Nat × String)) (fs : FS),
      (∀ p ∈ pages, m ≠ pageName dir p.1 ∧ m ≠ errorName (pageName dir p.1)) →
      (downloadAllGo lib oracle dir pages fs).lookup m = fs.lookup m := by
  intro pages
  induction pages with
  | nil => intro fs _; rfl
  | cons q rest ih =>
    obtain ⟨idx, url⟩ := q
    intro fs hm
    have hq := hm (idx, url) (List.mem_cons_self _ _)
    have hrest : ∀ p ∈ rest, m ≠ pageName dir p.1 ∧ m ≠ errorName (pageName dir p.1) :=
      fun p hp => hm p (List.mem_cons_of_mem _ hp)
    show (downloadAllGo lib oracle dir rest _).lookup m = fs.lookup m
    rw [ih _ hrest]
    exact downloadGo_lookup_other lib (oracle url) (pageName dir idx) m hq.1 hq.2
      [0, 1, 2, 3, 4] fs none

theorem runOutput_isSome (lib : ImgLib) (oracle : Nat → FetchOutcome) :
    ∀ attempts, runSucceeds lib oracle attempts = true →
      (runOutput lib oracle attempts).isSome = true := by
  intro attempts
  induction attempts with
  | nil => simp [runSucceeds]
  | cons a rest ih =>
    intro h
    cases hs : attemptSucceeds lib (oracle a) with
    | true =>
      simp only [runOutput, hs, if_true]
      cases ho : oracle a with
      | connError => rw [ho] at hs; simp [attemptSucceeds] at hs
      | resp r =>
        rw [ho] at hs
        simp only [attemptSucceeds, Bool.and_eq_true] at hs
        cases hd : lib.decode r.body with
        | none => rw [hd] at hs; simp at hs
        | some img => simp [attemptOutput, hd]
    | false =>
      simp only [runOutput, hs, if_false, Bool.false_eq_true]
      apply ih
      simpa [runSucceeds, hs] using h

theorem downloadAllGo_outcome (lib : ImgLib) (oracle : String → Nat → FetchOutcome)
    (dir : String) :
    ∀ (pages : List (Nat × String)) (fs : FS),
      (∀ p ∈ pages, ∀ q ∈ pages, pageName dir p.1 ≠ errorName (pageName dir q.1)) →
      pages.Pairwise (fun p q => pageName dir p.1 ≠ pageName dir q.1) →
      ∀ p ∈ pages,
        ((downloadAllGo lib oracle dir pages fs).lookup (pageName dir p.1)).isSome =
          runSucceeds lib (oracle p.2) [0, 1, 2, 3, 4] := by
  intro pages
  induction pages with
  | nil => intro fs _ _ p hp; exact absurd hp (List.not_mem_nil p)
  | cons q rest ih =>
    obtain ⟨idx, url⟩ := q
    intro fs hdisj hinj p hp
    have hrest_disj : ∀ p ∈ rest, ∀ q ∈ rest, pageName dir p.1 ≠ errorName (pageName dir q.1) :=
      fun p hp q hq => hdisj p (List.mem_cons_of_mem _ hp) q (List.mem_cons_of_mem _ hq)
    have hrest_inj := List.Pairwise.of_cons hinj
    rcases List.mem_cons.mp hp with hpq | hpmem
    · subst hpq
      show ((downloadAllGo lib oracle dir rest _).lookup (pageName dir idx)).isSome = _
      have hpres : (downloadAllGo lib oracle dir rest
          (download_and_process_image lib (oracle url) (pageName dir idx) fs).fs).lookup
            (pageName dir idx) =
          (download_and_process_image lib (oracle url) (pageName dir idx) fs).fs.lookup
            (pageName dir idx) := by
        apply downloadAllGo_lookup_other
        intro r hr
        refine ⟨(List.pairwise_cons.mp hinj).1 r hr, ?_⟩
        exact hdisj (idx, url) (List.mem_cons_self _ _) r (List.mem_cons_of_mem _ hr)
      rw [hpres]
      cases hrun : runSucceeds lib (oracle url) [0, 1, 2, 3, 4] with
      | true =>
        unfold download_and_process_image
        rw [downloadGo_success_lookup lib (oracle url) (pageName dir idx) [0, 1, 2, 3, 4] fs none
          (by rw [downloadGo_ok]; exact hrun)]
        exact runOutput_isSome lib (oracle url) [0, 1, 2, 3, 4] hrun
      | false =>
        have hfail : ∀ a ∈ [0, 1, 2, 3, 4], attemptSucceeds lib (oracle url a) = false := by
          intro a ha
          have h' := List.any_eq_false.mp hrun a ha
          exact Bool.not_eq_true _ ▸ h'
        have hne : errorName (pageName dir idx) ≠ pageName dir idx :=
          Ne.symm (hdisj (idx, url) (List.mem_cons_self _ _) (idx, url) (List.mem_cons_self _ _))
        have hfs := downloadGo_allFail_fs lib (oracle url) (pageName dir idx) hne
          [0, 1, 2, 3, 4] hfail (by simp) fs none
        unfold download_and_process_image
        rw [hfs.1]
        rfl
    · show ((downloadAllGo lib oracle dir rest _).lookup (pageName dir p.1)).isSome = _
      exact ih _ hrest_disj hrest_inj p hpmem

/-! ### Claim C2: one outcome per page, but no aggregate status -/

/-- A chapter whose second page URL always fails with connection errors;
the others succeed. -/
def oracleMixed : String → Nat → FetchOutcome :=
  fun u => if u = "u2" then oracleConn else oracleOK

/-- A chapter where every page URL succeeds. -/
def oracleAllOK : String → Nat → FetchOutcome := fun _ => oracleOK

/-- C2 counterexample: `download_images_concurrently` has no return
statement, so the value it hands back to its caller is `None` — identical
for a chapter where page 2 failed every attempt and for a chapter where
every page succeeded (the two filesystems differ, as the other two
conjuncts show).  No aggregate "complete"/"partial" status, failure count
or failed-index list is surfaced to the caller, refuting that part of the
claim. -/
theorem c2_counterexample :
    (download_images_concurrently okLib oracleMixed ["u1", "u2"] "d" []).2 =
      (download_images_concurrently okLib oracleAllOK ["u1", "u2"] "d" []).2 ∧
    (download_images_concurrently okLib oracleMixed ["u1", "u2"] "d" []).1.lookup
      (pageName "d" 2) = none ∧
    ((download_images_concurrently okLib oracleAllOK ["u1", "u2"] "d" []).1.lookup
      (pageName "d" 2)).isSome = true := by
  refine ⟨rfl, by decide, by decide⟩

/-- C2 (amended): for every chapter with P discovered page URLs, the
coordinator submits exactly one acquisition task per page index, in index
order 1..P, and each page produces exactly one outcome: its target file is
present after the run if and only if that page's own acquisition succeeded,
regardless of how many sibling downloads fail.  The function returns
`None`: no aggregate complete/partial status and no failed-page count or
indices are part of the result. -/
theorem c2_one_outcome_per_page (lib : ImgLib) (oracle : String → Nat → FetchOutcome)
    (urls : List String) (dir : String) (fs : FS)
    (hdisj : ∀ p ∈ enumerateFrom 1 urls, ∀ q ∈ enumerateFrom 1 urls,
      pageName dir p.1 ≠ errorName (pageName dir q.1))
    (hinj : (enumerateFrom 1 urls).Pairwise
      (fun p q => pageName dir p.1 ≠ pageName dir q.1)) :
    (enumerateFrom 1 urls).length = urls.length ∧
    List.map Prod.fst (enumerateFrom 1 urls) = List.range' 1 urls.length ∧
    (∀ p ∈ enumerateFrom 1 urls,
      ((download_images_concurrently lib oracle urls dir fs).1.lookup
        (pageName dir p.1)).isSome = runSucceeds lib (oracle p.2) [0, 1, 2, 3, 4]) ∧
    (download_images_concurrently lib oracle urls dir fs).2 = () := by
  refine ⟨enumerateFrom_length 1 urls, enumerateFrom_map_fst 1 urls, ?_, rfl⟩
  intro p hp
  exact downloadAllGo_outcome lib oracle dir (enumerateFrom 1 urls) fs hdisj hinj p hp

/-- C2 witness: the amended per-page outcome law at a concrete two-page
chapter whose second page always fails. -/
theorem c2_one_outcome_per_page_witness :
    (enumerateFrom 1 ["u1", "u2"]).length = 2 ∧
    List.map Prod.fst (enumerateFrom 1 ["u1", "u2"]) = List.range' 1 2 ∧
    (∀ p ∈ enumerateFrom 1 ["u1", "u2"],
      ((download_images_concurrently okLib oracleMixed ["u1", "u2"] "d" []).1.lookup
        (pageName "d" p.1)).isSome = runSucceeds okLib (oracleMixed p.2) [0, 1, 2, 3, 4]) ∧
    (download_images_concurrently okLib oracleMixed ["u1", "u2"] "d" []).2 = () := by
  have h := c2_one_outcome_per_page okLib oracleMixed ["u1", "u2"] "d" []
    (by decide) (by decide)
  exact h

/-! ### Chapter→PDF assembly: `convert_chapter_to_pdf`

`os.listdir` is modelled from the filesystem association list, PIL's
`Image.open(...).convert("RGB")` by `lib.decode`, and the final PDF by the
list of decoded page images in their saved order. -/

/-- Is `needle` a suffix of the string? -/
def isSuffixL (needle hay : List Char) : Bool :=
  isPrefixL needle.reverse hay.reverse

/-- Python `s.endswith(suffix)`. -/
def strEndsWith (s suffix : String) : Bool :=
  isSuffixL suffix.toList s.toList

/-- Python `s.lower()` (ASCII file names). -/
def strToLower (s : String) : String :=
  String.mk (s.toList.map Char.toLower)

/-- `os.listdir(dir)`: base names of files directly inside `dir`. -/
def listdir (fs : FS) (dir : String) : List String :=
  fs.filterMap fun e =>
    if isPrefixL (dir ++ "/").toList e.1.toList then
      let rest := e.1.toList.drop (dir ++ "/").toList.length
      if rest.contains '/' then none else some (String.mk rest)
    else none

/-- The first maximal run of digits in a string, if any. -/
def firstDigitRunAux : List Char → Option (List Char)
  | [] => none
  | c :: rest =>
    if c.isDigit then some (c :: rest.takeWhile Char.isDigit)
    else firstDigitRunAux rest

/-- The numeric value of a digit string. -/
def natOfDigits (cs : List Char) : Nat :=
  cs.foldl (fun n c => 10 * n + (c.toNat - 48)) 0

/-- `int(re.findall(r'\d+', x)[0])` (manga.py line 237); `none` when the
name holds no digit at all, where Python raises `IndexError`. -/
def firstDigitRun (s : String) : Option Nat :=
  (firstDigitRunAux s.toList).map natOfDigits

/-- The `.jpg` files of the chapter folder (manga.py line 233). -/
def chapterJpgs (fs : FS) (chapter_dir : String) : List String :=
  (listdir fs chapter_dir).filter fun f => strEndsWith (strToLower f) ".jpg"

/-- The sort key comparison of manga.py line 237. -/
def fileKeyLE (a b : String) : Prop :=
  (firstDigitRun a).getD 0 ≤ (firstDigitRun b).getD 0

instance : DecidableRel fileKeyLE :=
  fun a b => inferInstanceAs (Decidable ((firstDigitRun a).getD 0 ≤ (firstDigitRun b).getD 0))

/-- Result of `convert_chapter_to_pdf`.  The Python function returns `None`
on every path; this type records which exit was taken and, for the saving
path, the ordered decoded pages written into the document. -/
inductive PdfResult where
  | noFolder
  | noImages
  | keyError
  | openError
  | pdf (pages : List Bytes)
deriving DecidableEq

/-- `convert_chapter_to_pdf(chapter_name)` (manga.py lines 225-257): list
the chapter folder, keep `.jpg` files, sort them by the first digit run of
their names (Python's stable `sort`, modelled by insertion sort), open and
RGB-convert each, and save all pages into one document. -/
def convert_chapter_to_pdf (lib : ImgLib) (base chapter_name : String)
    (fs : FS) (dirExists : Bool) : PdfResult :=
  let chapter_dir := pathJoin base chapter_name
  if dirExists = false then .noFolder
  else
    let image_files := chapterJpgs fs chapter_dir
    if image_files.isEmpty then .noImages
    else if image_files.any (fun f => (firstDigitRun f).isNone) then .keyError
    else
      let sortedFiles := List.insertionSort fileKeyLE image_files
      let opened := sortedFiles.map fun f => (fs.lookup (pathJoin chapter_dir f)).bind lib.decode
      if opened.any Option.isNone then .openError
      else .pdf (opened.map fun o => o.getD [])

/-! ### Claim C3: empty chapter is rejected, partial sets are not -/

/-- C3 counterexample: a three-page chapter whose second page fails every
attempt leaves only pages 1 and 3 on disk; `convert_chapter_to_pdf` then
silently produces a two-page document from the successful pages instead of
rejecting the partial set — there is no completeness precondition anywhere
on the assembly path. -/
theorem c3_counterexample :
    (download_images_concurrently okLib oracleMixed ["u1", "u2", "u3"] "b/ch" []).1.lookup
      (pageName "b/ch" 2) = none ∧
    convert_chapter_to_pdf okLib "b" "ch"
      (download_images_concurrently okLib oracleMixed ["u1", "u2", "u3"] "b/ch" []).1 true =
      .pdf [[9, 1, 2], [9, 1, 2]] := by
  refine ⟨by decide, by decide⟩

/-- C3 (amended): with the chapter folder present, assembly fails (no
document is produced) when the folder holds zero `.jpg` artifacts; but
there is no partial-set rejection: whenever the folder holds any `.jpg`
files with digit-bearing names and decodable contents — in particular when
some pages of the chapter failed and only the successful pages' files
exist — assembly produces a document from exactly those files, sorted by
their numeric name key. -/
theorem c3_no_partial_set_check (lib : ImgLib) (base chapter_name : String) (fs : FS)
    (hkeys : ∀ f ∈ chapterJpgs fs (pathJoin base chapter_name), (firstDigitRun f).isSome = true)
    (hopen : ∀ f ∈ chapterJpgs fs (pathJoin base chapter_name),
      ((fs.lookup (pathJoin (pathJoin base chapter_name) f)).bind lib.decode).isSome = true) :
    (chapterJpgs fs (pathJoin base chapter_name) = [] →
      convert_chapter_to_pdf lib base chapter_name fs true = .noImages) ∧
    (chapterJpgs fs (pathJoin base chapter_name) ≠ [] →
      convert_chapter_to_pdf lib base chapter_name fs true =
        .pdf ((List.insertionSort fileKeyLE (chapterJpgs fs (pathJoin base chapter_name))).map
          fun f => ((fs.lookup (pathJoin (pathJoin base chapter_name) f)).bind
            lib.decode).getD [])) := by
  constructor
  · intro hempty
    unfold convert_chapter_to_pdf
    simp [hempty]
  · intro hne
    unfold convert_chapter_to_pdf
    have h1 : (chapterJpgs fs (pathJoin base chapter_name)).isEmpty = false := by
      cases h : (chapterJpgs fs (pathJoin base chapter_name)).isEmpty
      · rfl
      · exact absurd (List.isEmpty_iff.mp h) hne
    have h2 : (chapterJpgs fs (pathJoin base chapter_name)).any
        (fun f => (firstDigitRun f).isNone) = false := by
      rw [List.any_eq_false]
      intro f hf
      have := hkeys f hf
      simp [Option.isNone_eq_false_iff, Option.isSome_iff_ne_none.mp this]
    have h3 : ((List.insertionSort fileKeyLE (chapterJpgs fs (pathJoin base chapter_name))).map
        fun f => (fs.lookup (pathJoin (pathJoin base chapter_name) f)).bind lib.decode).any
          Option.isNone = false := by
      rw [List.any_eq_false]
      intro o ho
      obtain ⟨f, hf, rfl⟩ := List.mem_map.mp ho
      have hf' : f ∈ chapterJpgs fs (pathJoin base chapter_name) :=
        (List.Perm.mem_iff (List.perm_insertionSort fileKeyLE _)).mp hf
      have := hopen f hf'
      simp [Option.isNone_eq_false_iff, Option.isSome_iff_ne_none.mp this]
    simp [h1, h2, h3]

/-- C3 witness: a folder holding a single page file is assembled into a
one-page document; the zero-artifact implication is vacuous there. -/
theorem c3_no_partial_set_check_witness :
    (chapterJpgs [("b/ch/1.jpg", [1])] (pathJoin "b" "ch") = [] →
      convert_chapter_to_pdf okLib "b" "ch" [("b/ch/1.jpg", [1])] true = .noImages) ∧
    (chapterJpgs [("b/ch/1.jpg", [1])] (pathJoin "b" "ch") ≠ [] →
      convert_chapter_to_pdf okLib "b" "ch" [("b/ch/1.jpg", [1])] true =
        .pdf ((List.insertionSort fileKeyLE
          (chapterJpgs [("b/ch/1.jpg", [1])] (pathJoin "b" "ch"))).map
          fun f => ((FS.lookup [("b/ch/1.jpg", [1])] (pathJoin (pathJoin "b" "ch") f)).bind
            okLib.decode).getD [])) :=
  c3_no_partial_set_check okLib "b" "ch" [("b/ch/1.jpg", [1])] (by decide) (by decide)

/-! ### Chapter-link extraction (manga.py lines 103 and 120) -/

/-- An anchor element with the site's chapter-link class: its visible text
and its optional `href` attribute. -/
structure Anchor where
  text : String
  href : Option String
deriving DecidableEq

/-- Python whitespace for `str.strip()`. -/
def isPySpace (c : Char) : Bool :=
  c = ' ' || c = '\t' || c = '\n' || c = '\r' || c = '\x0b' || c = '\x0c'

/-- Python `s.strip()`. -/
def strip (s : String) : String :=
  String.mk (((s.toList.dropWhile isPySpace).reverse.dropWhile isPySpace).reverse)

/-- Association-list lookup (Python `d.get(k)`). -/
def lookupA : List (String × String) → String → Option String
  | [], _ => none
  | e :: d, k => if e.1 = k then some e.2 else lookupA d k

/-- Python dict item assignment `d[k] = v`: when the key exists its value
is updated in place (the entry keeps its original position), otherwise the
pair is appended. -/
def dictInsert : List (String × String) → String → String → List (String × String)
  | [], k, v => [(k, v)]
  | e :: d, k, v => if e.1 = k then (k, v) :: d else e :: dictInsert d k v

/-- One anchor's contribution to the dict comprehension
`{ch.text.strip(): ch.get('href') for ch in chapters if ch.get('href')}`:
anchors with a missing or empty (falsy) `href` are skipped. -/
def dictStep (d : List (String × String)) (ch : Anchor) : List (String × String) :=
  match ch.href with
  | some h => if h.toList.isEmpty then d else dictInsert d (strip ch.text) h
  | none => d

/-- The dict comprehension of manga.py lines 103/120, built in document
order with Python dict-update semantics. -/
def buildChapterDict (anchors : List Anchor) : List (String × String) :=
  anchors.foldl dictStep []

/-- Modelled from the spec: pair each anchor's trimmed visible text with
its href and, when the same trimmed name occurs on more than one anchor,
keep the URL of the FIRST occurrence (this is what the claim asserts; it is
compared against `buildChapterDict`, which embeds the code). -/
def specFirstHref : List Anchor → String → Option String
  | [], _ => none
  | ch :: rest, name =>
    match ch.href with
    | some h =>
      if h.toList.isEmpty = false ∧ strip ch.text = name then some h
      else specFirstHref rest name
    | none => specFirstHref rest name

/-- The href of the LAST anchor with the given trimmed name and a truthy
href — what the code actually keeps. -/
def lastTruthyHref : List Anchor → String → Option String
  | [], _ => none
  | ch :: rest, name =>
    match lastTruthyHref rest name with
    | some h => some h
    | none =>
      match ch.href with
      | some h => if h.toList.isEmpty = false ∧ strip ch.text = name then some h else none
      | none => none

theorem lookupA_dictInsert (d : List (String × String)) (k v m : String) :
    lookupA (dictInsert d k v) m = if k = m then some v else lookupA d m := by
  induction d with
  | nil => simp [dictInsert, lookupA]
  | cons e d ih =>
    by_cases he : e.1 = k
    · subst he
      simp only [dictInsert, if_true, lookupA]
      by_cases hm : e.1 = m <;> simp [hm]
    · simp only [dictInsert, he, if_false, lookupA]
      by_cases hm : e.1 = m
      · subst hm
        have : ¬ (k = e.1) := fun hh => he hh.symm
        simp [this]
      · simp [hm, ih]

theorem dictInsert_keys (d : List (String × String)) (k v : String) :
    (dictInsert d k v).map Prod.fst =
      if k ∈ d.map Prod.fst then d.map Prod.fst else d.map Prod.fst ++ [k] := by
  induction d with
  | nil => simp [dictInsert]
  | cons e d ih =>
    by_cases he : e.1 = k
    · subst he
      simp [dictInsert]
    · simp only [dictInsert, he, if_false, List.map_cons, ih]
      have hne : ¬ (k = e.1) := fun hh => he hh.symm
      by_cases hk : k ∈ d.map Prod.fst
      · simp [hk, hne]
      · simp [hk, hne]

theorem dictInsert_nodup (d : List (String × String)) (k v : String)
    (h : (d.map Prod.fst).Nodup) : ((dictInsert d k v).map Prod.fst).Nodup := by
  rw [dictInsert_keys]
  by_cases hk : k ∈ d.map Prod.fst
  · simp [hk, h]
  · simp [hk, h, List.nodup_append, hk]

theorem buildChapterDict_foldl (anchors : List Anchor) :
    ∀ (d : List (String × String)) (name : String),
      lookupA (anchors.foldl dictStep d) name =
        (match lastTruthyHref anchors name with
         | some h => some h
         | none => lookupA d name) := by
  induction anchors with
  | nil => intro d name; rfl
  | cons ch rest ih =>
    intro d name
    show lookupA (rest.foldl dictStep (dictStep d ch)) name = _
    rw [ih (dictStep d ch) name]
    cases hr : lastTruthyHref rest name with
    | some h => simp [lastTruthyHref, hr]
    | none =>
      simp only [lastTruthyHref, hr]
      cases hh : ch.href with
      | none => simp [dictStep, hh]
      | some h =>
        by_cases hde : h.toList = []
        · have hdd : h.data = [] := hde
          have hstep : dictStep d ch = d := by simp [dictStep, hh, hdd]
          rw [hstep]
          simp [hdd]
        · have hdd : ¬ h.data = [] := hde
          have hemp : h.toList.isEmpty = false := by
            cases hv : h.toList.isEmpty
            · rfl
            · exact absurd (List.isEmpty_iff.mp hv) hde
          have hstep : dictStep d ch = dictInsert d (strip ch.text) h := by
            simp [dictStep, hh, hdd]
          rw [hstep]
          by_cases hname : strip ch.text = name
          · simp [lookupA_dictInsert, hname, hemp, hdd]
          · simp [lookupA_dictInsert, hname, hemp, hdd]

theorem buildChapterDict_keys_nodup (anchors : List Anchor) :
    ((buildChapterDict anchors).map Prod.fst).Nodup := by
  suffices h : ∀ d : List (String × String), (d.map Prod.fst).Nodup →
      ((anchors.foldl dictStep d).map Prod.fst).Nodup by
    exact h [] (by simp)
  induction anchors with
  | nil => intro d hd; exact hd
  | cons ch rest ih =>
    intro d hd
    apply ih
    cases hh : ch.href with
    | none => simpa [dictStep, hh] using hd
    | some h =>
      by_cases hde : h.toList = []
      · have hdd : h.data = [] := hde
        have hstep : dictStep d ch = d := by simp [dictStep, hh, hdd]
        rw [hstep]
        exact hd
      · have hemp : h.toList.isEmpty = false := by
          cases hv : h.toList.isEmpty
          · rfl
          · exact absurd (List.isEmpty_iff.mp hv) hde
        have hdd : ¬ h.data = [] := hde
        have hstep : dictStep d ch = dictInsert d (strip ch.text) h := by
          simp [dictStep, hh, hdd]
        rw [hstep]
        exact dictInsert_nodup d _ h hd

/-! ### Claim C4: deduplication keeps the last href, not the first -/

/-- C4 counterexample: two anchors share the trimmed name "Ch 1" with
different hrefs.  The dict comprehension keeps the URL of the LAST
occurrence ("u2"), not of the first ("u1") as the claim states. -/
theorem c4_counterexample :
    buildChapterDict [⟨" Ch 1 ", some "u1"⟩, ⟨"Ch 1", some "u2"⟩] = [("Ch 1", "u2")] ∧
    specFirstHref [⟨" Ch 1 ", some "u1"⟩, ⟨"Ch 1", some "u2"⟩] "Ch 1" = some "u1" ∧
    lookupA (buildChapterDict [⟨" Ch 1 ", some "u1"⟩, ⟨"Ch 1", some "u2"⟩]) "Ch 1" ≠
      specFirstHref [⟨" Ch 1 ", some "u1"⟩, ⟨"Ch 1", some "u2"⟩] "Ch 1" := by
  refine ⟨by decide, by decide, by decide⟩

/-- C4 (amended): chapter discovery pairs each anchor's trimmed visible
text with its href, skipping anchors whose href is missing or empty; each
name occurs at most once in the result, and when the same trimmed name
occurs on more than one anchor the kept URL is that of the LAST occurrence
(later duplicates overwrite earlier ones). -/
theorem c4_last_occurrence_wins (anchors : List Anchor) (name : String) :
    lookupA (buildChapterDict anchors) name = lastTruthyHref anchors name ∧
    ((buildChapterDict anchors).map Prod.fst).Nodup := by
  constructor
  · rw [buildChapterDict, buildChapterDict_foldl anchors [] name]
    cases lastTruthyHref anchors name <;> rfl
  · exact buildChapterDict_keys_nodup anchors

/-! ### Chapter ordering: `sort_chapters` (manga.py lines 135-144)

`extract_chapter_number` applies `re.search(r'Chapter (\d+(?:\.\d+)?)',
name)` and converts the capture with `float`, using `float('inf')` when
there is no match.  For the digit strings the regex can capture, the float
value is exactly the decimal `intpart.fracpart`; the capture is embedded
as the exact rational `num / den` with `den` the power of ten of the
fractional length, and `float('inf')` as `none`, sorted after every
number.  Python's stable `sorted` is modelled by insertion sort: any two
stable sorts by the same total preorder produce the same list. -/

/-- The captured chapter number as an exact rational `num / den`
(`"12.5"` ↦ `⟨125, 10⟩`); `den` is always a positive power of ten. -/
structure ChapterKey where
  num : Nat
  den : Nat
deriving DecidableEq

/-- The rational value of a captured key. -/
def ChapterKey.toRat (k : ChapterKey) : ℚ :=
  (k.num : ℚ) / (k.den : ℚ)

/-- The regex `Chapter (\d+(?:\.\d+)?)` matched at the head of the list:
the literal `Chapter `, one or more digits (greedy), then optionally a dot
followed by one or more digits (greedy). -/
def chapterNumAt : List Char → Option ChapterKey
  | 'C' :: 'h' :: 'a' :: 'p' :: 't' :: 'e' :: 'r' :: ' ' :: rest =>
    let ds := rest.takeWhile Char.isDigit
    if ds.isEmpty then none
    else
      match rest.drop ds.length with
      | '.' :: rest2 =>
        let frs := rest2.takeWhile Char.isDigit
        if frs.isEmpty then some ⟨natOfDigits ds, 1⟩
        else some ⟨natOfDigits ds * 10 ^ frs.length + natOfDigits frs, 10 ^ frs.length⟩
      | _ => some ⟨natOfDigits ds, 1⟩
  | _ => none

/-- `re.search`: the leftmost position where the pattern matches. -/
def searchChapterNum : List Char → Option ChapterKey
  | [] => none
  | c :: rest =>
    match chapterNumAt (c :: rest) with
    | some k => some k
    | none => searchChapterNum rest

/-- `extract_chapter_number(chapter_name)` (manga.py lines 140-142);
`none` stands for `float('inf')`. -/
def extract_chapter_number (s : String) : Option ChapterKey :=
  searchChapterNum s.toList

/-- Comparison of sort keys: `none` (`float('inf')`) is greater than or
equal to everything; numeric keys compare by cross multiplication, i.e. by
their rational values. -/
def keyLEb : Option ChapterKey → Option ChapterKey → Bool
  | _, none => true
  | none, some _ => false
  | some a, some b => decide (a.num * b.den ≤ b.num * a.den)

/-- The sort relation on `(name, url)` pairs induced by the key of the
chapter name. -/
def chapterLE (x y : String × String) : Prop :=
  keyLEb (extract_chapter_number x.1) (extract_chapter_number y.1) = true

instance : DecidableRel chapterLE :=
  fun _ _ => inferInstanceAs (Decidable (_ = true))

/-- `sort_chapters(chapters)` (manga.py line 143): stable sort of the
name→url pairs by the numeric key of the name. -/
def sort_chapters (chapters : List (String × String)) : List (String × String) :=
  List.insertionSort chapterLE chapters

theorem keyLEb_toRat (a b : ChapterKey) (ha : 0 < a.den) (hb : 0 < b.den) :
    keyLEb (some a) (some b) = true ↔ a.toRat ≤ b.toRat := by
  have ha' : (0 : ℚ) < (a.den : ℚ) := by exact_mod_cast ha
  have hb' : (0 : ℚ) < (b.den : ℚ) := by exact_mod_cast hb
  rw [show keyLEb (some a) (some b) = decide (a.num * b.den ≤ b.num * a.den) from rfl,
    decide_eq_true_eq, ChapterKey.toRat, ChapterKey.toRat, div_le_div_iff₀ ha' hb']
  constructor
  · intro h; exact_mod_cast h
  · intro h; exact_mod_cast h

/-! ### Claim C5: numeric chapter ordering -/

/-- C5: the ordering key of a chapter name is the number captured by
`Chapter <digits>[.<digits>]` — `"Chapter 12.5"` yields the exact value
`25/2`, which lies strictly between the keys of `"Chapter 12"` and
`"Chapter 13"`; names without a match (like `"Extra"`) get the infinite
key and sort after every numeric chapter; key comparison agrees with the
rational values; the sort is stable (a key-sorted sublist of the input
stays a sublist of the output, preserving discovery order on ties); and
the collection `["Chapter 1", "Chapter 10", "Chapter 2"]` sorts to
`["Chapter 1", "Chapter 2", "Chapter 10"]`. -/
theorem c5_chapter_ordering :
    extract_chapter_number "Chapter 12.5" = some ⟨125, 10⟩ ∧
    extract_chapter_number "Chapter 12" = some ⟨12, 1⟩ ∧
    extract_chapter_number "Chapter 13" = some ⟨13, 1⟩ ∧
    (ChapterKey.toRat ⟨125, 10⟩ = 25 / 2 ∧ ChapterKey.toRat ⟨12, 1⟩ = 12 ∧
      ChapterKey.toRat ⟨13, 1⟩ = 13) ∧
    (keyLEb (some ⟨12, 1⟩) (some ⟨125, 10⟩) = true ∧
      keyLEb (some ⟨125, 10⟩) (some ⟨12, 1⟩) = false ∧
      keyLEb (some ⟨125, 10⟩) (some ⟨13, 1⟩) = true ∧
      keyLEb (some ⟨13, 1⟩) (some ⟨125, 10⟩) = false) ∧
    (∀ a b : ChapterKey, 0 < a.den → 0 < b.den →
      (keyLEb (some a) (some b) = true ↔ a.toRat ≤ b.toRat)) ∧
    extract_chapter_number "Extra" = none ∧
    (∀ k : ChapterKey, keyLEb (some k) none = true ∧ keyLEb none (some k) = false) ∧
    (∀ (chapters c : List (String × String)),
      c.Pairwise chapterLE → List.Sublist c chapters → List.Sublist c (sort_chapters chapters)) ∧
    sort_chapters [("Chapter 1", "u"), ("Chapter 10", "v"), ("Chapter 2", "w")] =
      [("Chapter 1", "u"), ("Chapter 2", "w"), ("Chapter 10", "v")] := by
  refine ⟨by decide, by decide, by decide, ⟨?_, ?_, ?_⟩, ⟨by decide, by decide, by decide,
    by decide⟩, keyLEb_toRat, by decide, fun k => ⟨rfl, rfl⟩, ?_, by decide⟩
  · unfold ChapterKey.toRat; norm_num
  · unfold ChapterKey.toRat; norm_num
  · unfold ChapterKey.toRat; norm_num
  · intro chapters c hp hs
    exact List.sublist_insertionSort hp hs

/-- C5 witness: instantiates the universally quantified conjuncts — key
comparison agrees with rational values at `12.5` versus `13`, and a
key-sorted sublist of the concrete collection survives sorting. -/
theorem c5_chapter_ordering_witness :
    (keyLEb (some ⟨125, 10⟩) (some ⟨13, 1⟩) = true ↔
      ChapterKey.toRat ⟨125, 10⟩ ≤ ChapterKey.toRat ⟨13, 1⟩) ∧
    List.Sublist [("Chapter 1", "u"), ("Chapter 10", "v")]
      (sort_chapters [("Chapter 1", "u"), ("Chapter 10", "v"), ("Chapter 2", "w")]) := by
  have h := c5_chapter_ordering
  refine ⟨h.2.2.2.2.2.1 ⟨125, 10⟩ ⟨13, 1⟩ (by decide) (by decide), ?_⟩
  exact h.2.2.2.2.2.2.2.2.1 [("Chapter 1", "u"), ("Chapter 10", "v"), ("Chapter 2", "w")]
    [("Chapter 1", "u"), ("Chapter 10", "v")] (by decide) (by decide)

/-! ### Rendered fetch: the Selenium fallback (manga.py lines 35-59, 87-107)

A session is an environment telling which of the driver steps succeed and
what the rendered document parses to.  The embedded functions record the
session events actually performed; the Python `try`/`except` wraps the
whole body and there is no `finally`, so `driver.quit()` runs only on the
path where navigation and capture both succeeded. -/

/-- Observable events of one Selenium session. -/
inductive SelEvent where
  | launch
  | navigate
  | settle
  | capture
  | quitDriver
deriving DecidableEq

/-- Environment of one session for a chapter page: which driver steps
succeed, and the parsed reader container (img `src` attributes) of the
captured document. -/
structure SelPage where
  launchOk : Bool
  navOk : Bool
  captureOk : Bool
  container : Option (List (Option String))
deriving DecidableEq

/-- `[img.get('src') for img in imgs if img.get('src')]`: the truthy
`src` attributes in document order. -/
def truthySrcs (imgs : List (Option String)) : List String :=
  imgs.filterMap fun s =>
    match s with
    | some v => if v.toList.isEmpty then none else some v
    | none => none

/-- `fetch_page_links_selenium(url)` (manga.py lines 35-59): launch a
headless session, navigate, sleep 3 seconds, capture `page_source`, quit
the driver, parse the container.  An exception at any step is caught at
line 57 and `[]` is returned — without reaching `driver.quit()`. -/
def fetch_page_links_selenium (s : SelPage) : List SelEvent × List String :=
  if s.launchOk = false then ([.launch], [])
  else if s.navOk = false then ([.launch, .navigate], [])
  else if s.captureOk = false then ([.launch, .navigate, .settle, .capture], [])
  else
    match s.container with
    | none => ([.launch, .navigate, .settle, .capture, .quitDriver], [])
    | some imgs => ([.launch, .navigate, .settle, .capture, .quitDriver], truthySrcs imgs)

/-- Environment of one session for a series page. -/
structure SelChap where
  launchOk : Bool
  navOk : Bool
  captureOk : Bool
  anchors : List Anchor
deriving DecidableEq

/-- `fetch_chapter_links_selenium(series_url)` (manga.py lines 87-107):
the same session pattern, parsing the chapter dict on success. -/
def fetch_chapter_links_selenium (s : SelChap) : List SelEvent × List (String × String) :=
  if s.launchOk = false then ([.launch], [])
  else if s.navOk = false then ([.launch, .navigate], [])
  else if s.captureOk = false then ([.launch, .navigate, .settle, .capture], [])
  else ([.launch, .navigate, .settle, .capture, .quitDriver], buildChapterDict s.anchors)

/-! ### Claim C7: session teardown -/

/-- C7: the claim is refuted by the code — `driver.quit()` is not in a
`finally` block, so when navigation raises (a live session, `navOk =
false`) the handler returns `[]`/`{}` with the session still running: the
trace holds `launch` but no `quitDriver`, for both rendered-fetch
functions.  Teardown does happen on the fully successful path (last two
conjuncts). -/
theorem c7_session_leak_on_error :
    (SelEvent.launch ∈ (fetch_page_links_selenium ⟨true, false, true, none⟩).1 ∧
      SelEvent.quitDriver ∉ (fetch_page_links_selenium ⟨true, false, true, none⟩).1) ∧
    (SelEvent.launch ∈ (fetch_chapter_links_selenium ⟨true, false, true, []⟩).1 ∧
      SelEvent.quitDriver ∉ (fetch_chapter_links_selenium ⟨true, false, true, []⟩).1) ∧
    SelEvent.quitDriver ∈
      (fetch_page_links_selenium ⟨true, true, true, some [some "i1", none]⟩).1 ∧
    (fetch_page_links_selenium ⟨true, true, true, some [some "i1", none]⟩).2 = ["i1"] := by
  refine ⟨⟨by decide, by decide⟩, ⟨by decide, by decide⟩, by decide, by decide⟩

/-! ### Two-tier link discovery (manga.py lines 61-85 and 109-133) -/

/-- Observable events of a discovery run: a primary (requests-tier)
attempt, a backoff sleep, or the invocation of the Selenium fallback. -/
inductive TierEvent where
  | primary
  | sleep (d : Nat)
  | fallback
deriving DecidableEq

/-- One primary attempt, after parsing: the request raised (`err`), the
expected structural element was absent (`absent`), or a result was found. -/
inductive StepOut (α : Type) where
  | err
  | absent
  | found (v : α)

/-- The shared retry skeleton of `fetch_page_links` and
`fetch_chapter_links`: up to five primary attempts; a raised request
sleeps `2 ** attempt` and retries unless it was the final attempt, which
falls back; structural absence falls back immediately; a found result
returns immediately. -/
def twoTierGo {α : Type} (step : Nat → StepOut α) (fallbackResult : α) (deflt : α) :
    List Nat → List TierEvent × α
  | [] => ([], deflt)
  | a :: rest =>
    match step a with
    | .found v => ([.primary], v)
    | .absent => ([.primary, .fallback], fallbackResult)
    | .err =>
      if rest.isEmpty then ([.primary, .fallback], fallbackResult)
      else
        let r := twoTierGo step fallbackResult deflt rest
        (.primary :: .sleep (2 ^ a) :: r.1, r.2)

/-- Outcome of one `SESSION.get` + parse on a chapter page. -/
inductive PrimaryPage where
  | err
  | html (container : Option (List (Option String)))
deriving DecidableEq

/-- One attempt of `fetch_page_links` (lines 67-77): a present reader
container returns its truthy img srcs (found), an absent container
escalates (absent). -/
def pageStep : PrimaryPage → StepOut (List String)
  | .err => .err
  | .html none => .absent
  | .html (some imgs) => .found (truthySrcs imgs)

/-- `fetch_page_links(url)` (manga.py lines 61-85). -/
def fetch_page_links (oracle : Nat → PrimaryPage) (sel : SelPage) :
    List TierEvent × List String :=
  twoTierGo (fun a => pageStep (oracle a)) (fetch_page_links_selenium sel).2 [] [0, 1, 2, 3, 4]

/-- Outcome of one `SESSION.get` on a series page. -/
inductive PrimaryChap where
  | err
  | html (anchors : List Anchor)
deriving DecidableEq

/-- One attempt of `fetch_chapter_links` (lines 115-125): an empty parsed
chapter dict escalates, a non-empty one is returned. -/
def chapStep : PrimaryChap → StepOut (List (String × String))
  | .err => .err
  | .html anchors =>
    if (buildChapterDict anchors).isEmpty then .absent
    else .found (buildChapterDict anchors)

/-- `fetch_chapter_links(series_url)` (manga.py lines 109-133). -/
def fetch_chapter_links (oracle : Nat → PrimaryChap) (sel : SelChap) :
    List TierEvent × List (String × String) :=
  twoTierGo (fun a => chapStep (oracle a)) (fetch_chapter_links_selenium sel).2 [] [0, 1, 2, 3, 4]

/-- Length of the run of leading attempts whose primary step raises. -/
def errPrefixLen {α : Type} (step : Nat → StepOut α) : List Nat → Nat
  | [] => 0
  | a :: rest =>
    match step a with
    | .err => errPrefixLen step rest + 1
    | _ => 0

theorem twoTierGo_head {α : Type} (step : Nat → StepOut α) (fb df : α)
    (a : Nat) (rest : List Nat) :
    (twoTierGo step fb df (a :: rest)).1.head? = some .primary := by
  cases hs : step a with
  | found v => simp [twoTierGo, hs]
  | absent => simp [twoTierGo, hs]
  | err =>
    by_cases hr : rest.isEmpty <;> simp [twoTierGo, hs, hr]

theorem twoTierGo_fallback_iff {α : Type} (step : Nat → StepOut α) (fb df : α) :
    ∀ attempts : List Nat,
      (TierEvent.fallback ∈ (twoTierGo step fb df attempts).1 ↔
        (attempts ≠ [] ∧ ∀ a ∈ attempts, step a = .err) ∨
        (∃ pre x post, attempts = pre ++ x :: post ∧
          (∀ b ∈ pre, step b = .err) ∧ step x = .absent)) := by
  intro attempts
  induction attempts with
  | nil =>
    simp only [twoTierGo]
    constructor
    · intro h; exact absurd h (List.not_mem_nil _)
    · rintro (⟨h, _⟩ | ⟨pre, x, post, heq, -, -⟩)
      · exact absurd rfl h
      · exact absurd heq (by simp)
  | cons a rest ih =>
    cases hs : step a with
    | found v =>
      simp only [twoTierGo, hs]
      constructor
      · intro h; simp at h
      · rintro (⟨-, hall⟩ | ⟨pre, x, post, heq, hpre, hx⟩)
        · have := hall a (List.mem_cons_self a rest)
          rw [hs] at this; cases this
        · cases pre with
          | nil =>
            simp at heq
            rw [heq.1] at hs; rw [hs] at hx; cases hx
          | cons p pre' =>
            simp at heq
            have := hpre p (List.mem_cons_self p pre')
            rw [heq.1] at hs; rw [hs] at this; cases this
    | absent =>
      simp only [twoTierGo, hs]
      constructor
      · intro _
        exact Or.inr ⟨[], a, rest, by simp, by simp, hs⟩
      · intro _; simp
    | err =>
      by_cases hr : rest.isEmpty
      · have hre : rest = [] := List.isEmpty_iff.mp hr
        subst hre
        simp only [twoTierGo, hs, List.isEmpty_nil, if_true]
        constructor
        · intro _
          exact Or.inl ⟨by simp, by intro b hb; simp at hb; rw [hb]; exact hs⟩
        · intro _; simp
      · have hre : rest ≠ [] := fun hh => by simp [hh] at hr
        have hgoal : TierEvent.fallback ∈ (twoTierGo step fb df (a :: rest)).1 ↔
            TierEvent.fallback ∈ (twoTierGo step fb df rest).1 := by
          rw [twoTierGo, hs, if_neg hr]
          simp
        rw [hgoal, ih]
        constructor
        · rintro (⟨hne, hall⟩ | ⟨pre, x, post, heq, hpre, hx⟩)
          · exact Or.inl ⟨by simp, by
              intro b hb
              rcases List.mem_cons.mp hb with hb | hb
              · rw [hb]; exact hs
              · exact hall b hb⟩
          · refine Or.inr ⟨a :: pre, x, post, by rw [heq, List.cons_append], ?_, hx⟩
            intro b hb
            rcases List.mem_cons.mp hb with hb | hb
            · rw [hb]; exact hs
            · exact hpre b hb
        · rintro (⟨-, hall⟩ | ⟨pre, x, post, heq, hpre, hx⟩)
          · exact Or.inl ⟨hre, fun b hb => hall b (List.mem_cons_of_mem a hb)⟩
          · cases pre with
            | nil =>
              simp at heq
              rw [heq.1] at hs; rw [hs] at hx; cases hx
            | cons p pre' =>
              simp at heq
              refine Or.inr ⟨pre', x, post, heq.2, ?_, hx⟩
              exact fun b hb => hpre b (List.mem_cons_of_mem p hb)

theorem twoTierGo_primary_count {α : Type} (step : Nat → StepOut α) (fb df : α) :
    ∀ attempts : List Nat,
      (twoTierGo step fb df attempts).1.count .primary =
        min (errPrefixLen step attempts + 1) attempts.length := by
  intro attempts
  induction attempts with
  | nil => simp [twoTierGo, errPrefixLen]
  | cons a rest ih =>
    cases hs : step a with
    | found v =>
      simp [twoTierGo, hs, errPrefixLen, List.count_cons, Nat.min_def, Nat.succ_le_succ]
    | absent =>
      simp [twoTierGo, hs, errPrefixLen, List.count_cons, Nat.min_def, Nat.succ_le_succ]
    | err =>
      by_cases hr : rest.isEmpty
      · have hre : rest = [] := List.isEmpty_iff.mp hr
        subst hre
        simp [twoTierGo, hs, errPrefixLen, List.count_cons]
      · have hgoal : (twoTierGo step fb df (a :: rest)).1 =
            TierEvent.primary :: TierEvent.sleep (2 ^ a) :: (twoTierGo step fb df rest).1 := by
          rw [twoTierGo, hs, if_neg hr]
        rw [hgoal]
        simp [List.count_cons, ih, errPrefixLen, hs, Nat.succ_min_succ]

theorem twoTierGo_no_primary_after_fallback {α : Type} (step : Nat → StepOut α) (fb df : α) :
    ∀ attempts : List Nat,
      ¬ List.Sublist [TierEvent.fallback, TierEvent.primary]
        (twoTierGo step fb df attempts).1 := by
  intro attempts
  induction attempts with
  | nil =>
    intro h
    have := h.length_le
    simp [twoTierGo] at this
  | cons a rest ih =>
    intro h
    cases hs : step a with
    | found v =>
      rw [twoTierGo] at h
      rw [hs] at h
      have := h.length_le
      simp at this
    | absent =>
      rw [twoTierGo] at h
      rw [hs] at h
      cases h with
      | cons _ h' =>
        have := h'.length_le
        simp at this
    | err =>
      by_cases hr : rest.isEmpty
      · rw [twoTierGo] at h
        rw [hs] at h
        rw [if_pos hr] at h
        cases h with
        | cons _ h' =>
          have := h'.length_le
          simp at this
      · rw [twoTierGo] at h
        rw [hs] at h
        rw [if_neg hr] at h
        cases h with
        | cons _ h' =>
          cases h' with
          | cons _ h'' => exact ih h''

/-! ### Claim C8: the fallback is never the primary path -/

/-- C8: on every execution of link discovery — page discovery and chapter
discovery alike — the first event is a primary (requests-tier) attempt;
no primary attempt ever follows the fallback, so structural absence
escalates to the rendered tier instead of being retried on the requests
tier; the fallback is invoked exactly when a leading run of erroring
attempts is followed by an attempt whose expected structural element is
absent, or when all five attempts error; and the number of primary
attempts equals the number of leading errors plus one, capped at five. -/
theorem c8_fallback_discipline (oracleP : Nat → PrimaryPage) (selP : SelPage)
    (oracleC : Nat → PrimaryChap) (selC : SelChap) :
    ((fetch_page_links oracleP selP).1.head? = some TierEvent.primary ∧
      ¬ List.Sublist [TierEvent.fallback, TierEvent.primary]
        (fetch_page_links oracleP selP).1 ∧
      (TierEvent.fallback ∈ (fetch_page_links oracleP selP).1 ↔
        (([0, 1, 2, 3, 4] : List Nat) ≠ [] ∧
          ∀ a ∈ ([0, 1, 2, 3, 4] : List Nat), pageStep (oracleP a) = .err) ∨
        (∃ pre x post, ([0, 1, 2, 3, 4] : List Nat) = pre ++ x :: post ∧
          (∀ b ∈ pre, pageStep (oracleP b) = .err) ∧ pageStep (oracleP x) = .absent)) ∧
      (fetch_page_links oracleP selP).1.count TierEvent.primary =
        min (errPrefixLen (fun a => pageStep (oracleP a)) [0, 1, 2, 3, 4] + 1) 5) ∧
    ((fetch_chapter_links oracleC selC).1.head? = some TierEvent.primary ∧
      ¬ List.Sublist [TierEvent.fallback, TierEvent.primary]
        (fetch_chapter_links oracleC selC).1 ∧
      (TierEvent.fallback ∈ (fetch_chapter_links oracleC selC).1 ↔
        (([0, 1, 2, 3, 4] : List Nat) ≠ [] ∧
          ∀ a ∈ ([0, 1, 2, 3, 4] : List Nat), chapStep (oracleC a) = .err) ∨
        (∃ pre x post, ([0, 1, 2, 3, 4] : List Nat) = pre ++ x :: post ∧
          (∀ b ∈ pre, chapStep (oracleC b) = .err) ∧ chapStep (oracleC x) = .absent)) ∧
      (fetch_chapter_links oracleC selC).1.count TierEvent.primary =
        min (errPrefixLen (fun a => chapStep (oracleC a)) [0, 1, 2, 3, 4] + 1) 5) := by
  refine ⟨⟨?_, ?_, ?_, ?_⟩, ?_, ?_, ?_, ?_⟩
  · exact twoTierGo_head _ _ _ 0 _
  · exact twoTierGo_no_primary_after_fallback _ _ _ _
  · exact twoTierGo_fallback_iff _ _ _ _
  · exact twoTierGo_primary_count _ _ _ _
  · exact twoTierGo_head _ _ _ 0 _
  · exact twoTierGo_no_primary_after_fallback _ _ _ _
  · exact twoTierGo_fallback_iff _ _ _ _
  · exact twoTierGo_primary_count _ _ _ _

/-- A page-discovery run whose first attempt errors and whose second
finds the container absent. -/
def oraclePDemo : Nat → PrimaryPage := fun a => if a = 0 then .err else .html none

/-- A working rendered session for the demo runs. -/
def selPDemo : SelPage := ⟨true, true, true, some [some "s1"]⟩

/-- A chapter-discovery run that finds a chapter on the first attempt. -/
def oracleCDemo : Nat → PrimaryChap := fun _ => .html [⟨"Ch 1", some "u"⟩]

/-- A working rendered session for the chapter demo. -/
def selCDemo : SelChap := ⟨true, true, true, []⟩

/-- C8 witness: the discipline at concrete runs — the erroring-then-absent
page run sleeps once, falls back after its second primary attempt, and
gives the rendered result; the chapter run never falls back. -/
theorem c8_fallback_discipline_witness :
    (fetch_page_links oraclePDemo selPDemo).1.head? = some TierEvent.primary ∧
    (fetch_page_links oraclePDemo selPDemo).1.count TierEvent.primary =
      min (errPrefixLen (fun a => pageStep (oraclePDemo a)) [0, 1, 2, 3, 4] + 1) 5 ∧
    ¬ List.Sublist [TierEvent.fallback, TierEvent.primary]
      (fetch_chapter_links oracleCDemo selCDemo).1 :=
  ⟨(c8_fallback_discipline oraclePDemo selPDemo oracleCDemo selCDemo).1.1,
   (c8_fallback_discipline oraclePDemo selPDemo oracleCDemo selCDemo).1.2.2.2,
   (c8_fallback_discipline oraclePDemo selPDemo oracleCDemo selCDemo).2.2.1⟩

end Manga
